import Mathlib

/-!
Verification of the multi-terminal session bridge of `cks-weight-room`.

This file gives a shallow embedding of the parts of the repository that the
specification's testable properties talk about:

* `internal/security/commandfilter.go` — the command policy engine
  (`NewCommandFilter`, `ValidateCommand`, `SanitizeInput`);
* the WebSocket input loops of `handleWorkerNodeTerminal` and
  `HandleSecureTerminalCLI` (line assembly, policy check, PTY forwarding);
* the resize handling shared by `HandleTerminal`, `HandleSecureTerminalCLI`
  and `handleWorkerNodeTerminal`;
* the IDE session registry of `internal/api` (`getOrCreateSession`,
  `cleanupIdleSessions`), modelled once as a lock/IO event trace and once as
  an interleaving of atomic read and locked critical-section steps.

Machine strings are modelled as `List Char` (the Go code only treats the
filter-relevant characters, all ASCII, specially; byte lengths are computed
with `Char.utf8Size` where Go's `len` is byte-based).  The Go `regexp`
patterns of the deny list use only literals, `\s`, `\b`, `[06]`, `.`,
alternation, `?`, `+` and `*`; a small backtracking matcher with exactly
these constructs interprets them.
-/

set_option autoImplicit false

namespace CksWeightRoom

/-- ASCII word characters, as used by RE2's `\b` assertion. -/
def isWordChar (c : Char) : Bool :=
  c.isAlphanum || c = '_'

/-- Character classes occurring in the deny patterns: RE2's `\s`
(`[\t\n\f\r ]`), the class `[06]`, and `.` (any character except newline). -/
inductive CharCls where
  | space
  | zeroOrSix
  | anyNoNL
deriving DecidableEq

/-- Membership test of a character class. -/
def CharCls.test : CharCls → Char → Bool
  | .space, c => c = '\t' || c = '\n' || c = '\x0c' || c = '\r' || c = ' '
  | .zeroOrSix, c => c = '0' || c = '6'
  | .anyNoNL, c => c ≠ '\n'

/-- Regular expressions over the constructs used by the deny list of
`NewCommandFilter`. -/
inductive Rx where
  | eps
  | lit (c : Char)
  | cls (k : CharCls)
  | wordB
  | seq (a b : Rx)
  | alt (a b : Rx)
  | star (a : Rx)
deriving DecidableEq

/-- RE2 word-boundary test at a position described by the previously consumed
character (`none` at the start of the text) and the remaining suffix. -/
def wordBoundaryAt (prev : Option Char) (rest : List Char) : Bool :=
  let pw := match prev with | none => false | some c => isWordChar c
  let nw := match rest with | [] => false | c :: _ => isWordChar c
  pw != nw

/-- Kleene-star matching: given the single-step matcher of the body, return
all positions reachable by iterating it.  Each counted iteration must consume
at least one character, so `fuel` bounded by the suffix length is exhaustive;
empty-body iterations add no new positions. -/
def starRuns (step : Option Char → List Char → List (Option Char × List Char)) :
    Nat → Option Char → List Char → List (Option Char × List Char)
  | 0, p, s => [(p, s)]
  | fuel + 1, p, s =>
    (p, s) :: (((step p s).filter (fun q => q.2.length < s.length)).foldr
      (fun q acc => starRuns step fuel q.1 q.2 ++ acc) [])

/-- All ways a regex can match a prefix of `s`, given the character consumed
just before `s` (for `\b`).  Each result is the position after the match. -/
def Rx.runs : Rx → Option Char → List Char → List (Option Char × List Char)
  | .eps, p, s => [(p, s)]
  | .lit _, _, [] => []
  | .lit c, _, x :: xs => if x = c then [(some x, xs)] else []
  | .cls _, _, [] => []
  | .cls k, _, x :: xs => if k.test x then [(some x, xs)] else []
  | .wordB, p, s => if wordBoundaryAt p s then [(p, s)] else []
  | .seq a b, p, s => (a.runs p s).foldr (fun q acc => b.runs q.1 q.2 ++ acc) []
  | .alt a b, p, s => a.runs p s ++ b.runs p s
  | .star a, p, s => starRuns (fun p' s' => a.runs p' s') s.length p s

/-- Whether the regex matches starting exactly at the given position. -/
def matchAt (r : Rx) (p : Option Char) (s : List Char) : Bool :=
  !(r.runs p s).isEmpty

/-- Unanchored search continuing from a position. -/
def searchFrom (r : Rx) : Option Char → List Char → Bool
  | p, [] => matchAt r p []
  | p, x :: xs => matchAt r p (x :: xs) || searchFrom r (some x) xs

/-- Go's `regexp.MatchString`: unanchored match anywhere in the text. -/
def rxMatch (r : Rx) (s : List Char) : Bool :=
  searchFrom r none s

/-- Literal regex from a string. -/
def rxStr (s : String) : Rx :=
  s.data.foldr (fun c acc => Rx.seq (Rx.lit c) acc) Rx.eps

/-- `r+` as `r r*`. -/
def rxPlus (r : Rx) : Rx := Rx.seq r (Rx.star r)

/-- `r?` as `r | ε`. -/
def rxOpt (r : Rx) : Rx := Rx.alt r Rx.eps

/-- `\s+`. -/
def wsPlus : Rx := rxPlus (Rx.cls CharCls.space)

/-- `.*`. -/
def dotStar : Rx := Rx.star (Rx.cls CharCls.anyNoNL)

/-- The ordered deny list of `NewCommandFilter` (commandfilter.go), each
pattern paired with its description, in source order. -/
def blockedCommands : List (Rx × String) :=
  [ (Rx.seq Rx.wordB (Rx.seq (rxStr "rm") (Rx.seq wsPlus (Rx.seq
      (Rx.alt (Rx.seq (rxStr "-r") (rxOpt (Rx.lit 'f')))
        (Rx.alt (rxStr "--recursive") (rxStr "--force")))
      (Rx.seq wsPlus (Rx.lit '/'))))), "Recursive delete from root"),
    (Rx.seq Rx.wordB (Rx.seq (rxStr "dd") wsPlus), "Direct disk access (dd command)"),
    (Rx.seq Rx.wordB (rxStr "mkfs"), "Filesystem creation"),
    (Rx.seq Rx.wordB (rxStr "fdisk"), "Disk partitioning"),
    (Rx.seq Rx.wordB (rxStr "parted"), "Disk partitioning"),
    (Rx.seq Rx.wordB (Rx.seq (rxStr "reboot") Rx.wordB), "System reboot"),
    (Rx.seq Rx.wordB (Rx.seq (rxStr "shutdown") Rx.wordB), "System shutdown"),
    (Rx.seq Rx.wordB (Rx.seq (rxStr "halt") Rx.wordB), "System halt"),
    (Rx.seq Rx.wordB (Rx.seq (rxStr "poweroff") Rx.wordB), "System poweroff"),
    (Rx.seq Rx.wordB (Rx.seq (rxStr "init") (Rx.seq wsPlus (Rx.cls CharCls.zeroOrSix))),
      "System reboot/halt via init"),
    (Rx.seq Rx.wordB (Rx.seq (rxStr "sudo") Rx.wordB), "Sudo execution"),
    (Rx.seq Rx.wordB (Rx.seq (rxStr "su") (Rx.cls CharCls.space)), "Switch user"),
    (Rx.seq Rx.wordB (Rx.seq (Rx.alt (rxStr "nmap") (rxStr "masscan")) Rx.wordB),
      "Network scanning"),
    (Rx.seq Rx.wordB (Rx.seq (rxStr "metasploit") Rx.wordB), "Metasploit framework"),
    (Rx.seq Rx.wordB (Rx.seq (rxStr "kill") (Rx.seq wsPlus (Rx.seq (rxStr "-9")
      (Rx.seq wsPlus (Rx.seq (Rx.lit '1') Rx.wordB))))), "Kill init process"),
    (Rx.seq Rx.wordB (Rx.seq (rxStr "killall") (Rx.seq wsPlus (rxStr "-9"))),
      "Force kill all processes"),
    (Rx.seq (rxStr ":()\x7b") (Rx.seq dotStar (Rx.seq (rxStr ":|:")
      (Rx.seq dotStar (rxStr "\x7d;:")))), "Fork bomb"),
    (Rx.seq Rx.wordB (Rx.seq (rxStr "while") (Rx.seq wsPlus (Rx.seq (rxStr "true")
      (Rx.seq dotStar (Rx.seq (rxStr "do") (Rx.seq dotStar (rxStr "done"))))))),
      "Infinite loop"),
    (Rx.seq Rx.wordB (Rx.seq (rxStr "chroot") Rx.wordB), "Chroot escape attempt"),
    (Rx.seq Rx.wordB (Rx.seq (rxStr "docker") (Rx.seq wsPlus
      (Rx.seq (Rx.alt (rxStr "run") (rxStr "exec")) Rx.wordB))), "Docker escape attempt"),
    (Rx.seq Rx.wordB (Rx.seq (rxStr "nsenter") Rx.wordB), "Namespace escape"),
    (Rx.seq (rxStr "base64") (Rx.seq dotStar (Rx.seq (rxStr "-d") (Rx.seq dotStar
      (Rx.seq (Rx.lit '|') (Rx.seq dotStar (rxStr "sh")))))), "Base64 decode and execute"),
    (Rx.seq (rxStr "echo") (Rx.seq dotStar (Rx.seq (Rx.lit '|') (Rx.seq dotStar
      (Rx.seq (rxStr "base64") (Rx.seq dotStar (rxStr "-d")))))),
      "Encoded command execution") ]

/-- Go's `unicode.IsSpace`, used by `strings.TrimSpace`. -/
def isGoSpace (c : Char) : Bool :=
  c = ' ' || c = '\t' || c = '\n' || c = '\x0b' || c = '\x0c' || c = '\r' ||
  c = '\x85' || c = '\xa0' || c = ' ' || (' ' ≤ c && c ≤ ' ') ||
  c = ' ' || c = ' ' || c = ' ' || c = ' ' || c = '　'

/-- Go's `strings.TrimSpace`. -/
def trimSpace (l : List Char) : List Char :=
  ((l.dropWhile isGoSpace).reverse.dropWhile isGoSpace).reverse

/-- Go's `len` on a string: the UTF-8 byte length. -/
def goLen (l : List Char) : Nat :=
  (l.map Char.utf8Size).sum

/-- Whether `needle` is a leading fragment of `hay`. -/
def startsWithL : List Char → List Char → Bool
  | [], _ => true
  | _ :: _, [] => false
  | a :: as, b :: bs => a = b && startsWithL as bs

/-- Go's `strings.Contains` at the character level (all needles used by the
filter are ASCII, so byte-level and character-level containment agree). -/
def containsSub (needle : List Char) : List Char → Bool
  | [] => needle.isEmpty
  | c :: rest => startsWithL needle (c :: rest) || containsSub needle rest

/-- Helper for `countOccur`, with fuel bounding the scan length. -/
def countOccurAux (needle : List Char) : Nat → List Char → Nat
  | 0, _ => 0
  | _, [] => 0
  | fuel + 1, c :: rest =>
    if startsWithL needle (c :: rest) then
      1 + countOccurAux needle fuel ((c :: rest).drop needle.length)
    else
      countOccurAux needle fuel rest

/-- Go's `strings.Count`: number of non-overlapping instances of `needle` in
`hay` (for an empty needle, one more than the length). -/
def countOccur (needle hay : List Char) : Nat :=
  if needle.isEmpty then hay.length + 1 else countOccurAux needle (hay.length + 1) hay

/-- The suspicious character sequences of `ValidateCommand` (commandfilter.go),
in source order: directory traversal, output redirection to the null device,
and output-hiding background redirection. -/
def suspiciousPatterns : List (List Char) :=
  [ "../../..".data, "/dev/null".data, "&>/dev/null".data ]

/-- The deny-list scan of `ValidateCommand`: the reason of the first pattern
matching the (already trimmed) command, if any. -/
def firstBlocked : List (Rx × String) → List Char → Option String
  | [], _ => none
  | (r, desc) :: rest, cmd =>
    if rxMatch r cmd then some ("Blocked: " ++ desc) else firstBlocked rest cmd

/-- The `suspiciousCount` computed by `ValidateCommand`: the number of
suspicious patterns that occur somewhere in the command.  Each pattern counts
at most once, however many times it occurs (the Go code increments once per
`strings.Contains` hit). -/
def suspiciousCount (cmd : List Char) : Nat :=
  (suspiciousPatterns.filter (fun p => containsSub p cmd)).length

/-- `CommandFilter.ValidateCommand` (commandfilter.go): trim, accept the empty
command, scan the deny list, then apply the chaining, length and
suspicious-pattern heuristics. -/
def ValidateCommand (cmd0 : List Char) : Bool × String :=
  let cmd := trimSpace cmd0
  if cmd.isEmpty then (true, "")
  else
    match firstBlocked blockedCommands cmd with
    | some reason => (false, reason)
    | none =>
      if cmd.count '|' > 5 then (false, "Blocked: Excessive command chaining")
      else if cmd.count ';' > 5 then (false, "Blocked: Excessive command chaining")
      else if goLen cmd > 1000 then (false, "Blocked: Command too long")
      else if suspiciousCount cmd > 2 then (false, "Blocked: Suspicious pattern detected")
      else (true, "")

/-- `CommandFilter.SanitizeInput` (commandfilter.go): remove NUL bytes, leave
everything else (including whitespace and line terminators) untouched. -/
def SanitizeInput (input : List Char) : List Char :=
  input.filter (fun c => c ≠ '\x00')

/-! ### Transport bridge input handling

`handleWorkerNodeTerminal` (terminal_worker path) and `HandleSecureTerminalCLI`
(terminal_secure_cli.go) process each inbound `input` message identically up
to the rejection branch: the worker-node handler writes a bare `"\r\n"` to
the PTY and emits an ANSI warning, the secure-CLI handler only emits an ANSI
warning (prefixed with `"\r\n"`) and writes nothing to the PTY.

The observable effect of processing one message is recorded in a
`BridgeState`: the line-assembly buffer `cmdBuffer`, the sequence of byte
chunks written to the PTY, the sequence of frames sent to the WebSocket, and
the sequence of command strings passed to `ValidateCommand`. -/

/-- Observable state of one transport connection's inbound loop. -/
structure BridgeState where
  cmdBuffer : List Char
  ptyWrites : List (List Char)
  outFrames : List (List Char)
  evaluated : List (List Char)
deriving DecidableEq

/-- State at connection open: empty buffer, nothing written. -/
def initialBridgeState : BridgeState :=
  ⟨[], [], [], []⟩

/-- Line assembly of both handlers:
`strings.TrimSpace(strings.ReplaceAll(strings.ReplaceAll(cmdBuffer, "\n", ""), "\r", ""))`. -/
def assembleCmd (buf : List Char) : List Char :=
  trimSpace ((buf.filter (fun c => c ≠ '\n')).filter (fun c => c ≠ '\r'))

/-- The ANSI-colored warning frame of `handleWorkerNodeTerminal`. -/
def blockWarning (reason : String) : List Char :=
  ("\x1b[31m⚠  Command blocked: " ++ reason ++ "\x1b[0m\r\n").data

/-- The ANSI-colored warning frame of `HandleSecureTerminalCLI` (it begins
with a line terminator because none is written to the PTY). -/
def secureBlockWarning (reason : String) : List Char :=
  ("\r\n\x1b[31m⚠  Command blocked: " ++ reason ++ "\x1b[0m\r\n").data

/-- One `input` message in `handleWorkerNodeTerminal`'s inbound loop
(part of `handleWorkerNodeTerminal`, terminal handler for worker nodes):
sanitize, append to the buffer; if the sanitized chunk contains a line
terminator, flatten and trim the buffer, reset it, and when the command is
nonempty validate it — on rejection write a bare `"\r\n"` to the PTY and
emit the warning frame instead of the chunk; otherwise (and in every other
case) write the sanitized chunk to the PTY. -/
def workerNodeInputStep (st : BridgeState) (data : List Char) : BridgeState :=
  let sanitized := SanitizeInput data
  let buf := st.cmdBuffer ++ sanitized
  if sanitized.contains '\n' || sanitized.contains '\r' then
    let cmd := assembleCmd buf
    if cmd.isEmpty then
      { cmdBuffer := [], ptyWrites := st.ptyWrites ++ [sanitized],
        outFrames := st.outFrames, evaluated := st.evaluated }
    else
      match ValidateCommand cmd with
      | (false, reason) =>
        { cmdBuffer := [], ptyWrites := st.ptyWrites ++ ["\r\n".data],
          outFrames := st.outFrames ++ [blockWarning reason],
          evaluated := st.evaluated ++ [cmd] }
      | (true, _) =>
        { cmdBuffer := [], ptyWrites := st.ptyWrites ++ [sanitized],
          outFrames := st.outFrames, evaluated := st.evaluated ++ [cmd] }
  else
    { cmdBuffer := buf, ptyWrites := st.ptyWrites ++ [sanitized],
      outFrames := st.outFrames, evaluated := st.evaluated }

/-- One `input` message in `HandleSecureTerminalCLI`'s inbound loop: identical
to `workerNodeInputStep` except that on rejection nothing at all is written to
the PTY and the warning frame carries the leading `"\r\n"`. -/
def secureCLIInputStep (st : BridgeState) (data : List Char) : BridgeState :=
  let sanitized := SanitizeInput data
  let buf := st.cmdBuffer ++ sanitized
  if sanitized.contains '\n' || sanitized.contains '\r' then
    let cmd := assembleCmd buf
    if cmd.isEmpty then
      { cmdBuffer := [], ptyWrites := st.ptyWrites ++ [sanitized],
        outFrames := st.outFrames, evaluated := st.evaluated }
    else
      match ValidateCommand cmd with
      | (false, reason) =>
        { cmdBuffer := [], ptyWrites := st.ptyWrites,
          outFrames := st.outFrames ++ [secureBlockWarning reason],
          evaluated := st.evaluated ++ [cmd] }
      | (true, _) =>
        { cmdBuffer := [], ptyWrites := st.ptyWrites ++ [sanitized],
          outFrames := st.outFrames, evaluated := st.evaluated ++ [cmd] }
  else
    { cmdBuffer := buf, ptyWrites := st.ptyWrites ++ [sanitized],
      outFrames := st.outFrames, evaluated := st.evaluated }

/-! ### Resize handling -/

/-- PTY dimensions as reported back by the PTY after a `Setsize`.  The message
fields `Rows`/`Cols` are Go `int`s; `pty.Winsize` stores `uint16`. -/
structure PtyDims where
  rows : Int
  cols : Int
deriving DecidableEq

/-- Go's conversion `uint16(n)` on an `int`: the low 16 bits. -/
def uint16Of (n : Int) : Int :=
  n % 65536

/-- The `resize` branch shared by `HandleTerminal`, `HandleSecureTerminalCLI`
and `handleWorkerNodeTerminal`: if `msg.Rows > 0 && msg.Cols > 0`, call
`pty.Setsize` with `uint16(msg.Rows)`, `uint16(msg.Cols)`; otherwise do
nothing. -/
def resizeStep (dims : PtyDims) (msgRows msgCols : Int) : PtyDims :=
  if 0 < msgRows ∧ 0 < msgCols then
    { rows := uint16Of msgRows, cols := uint16Of msgCols }
  else
    dims

/-! ### IDE session registry: lock/IO event traces

`getOrCreateSession` and `cleanupIdleSessions` (IDE handler, export.go part)
are modelled as the sequences of lock, map and container-runtime events they
perform, with the branch conditions (session found in the map, health check
result) as parameters. -/

/-- Container-runtime invocations of the registry: `isSessionHealthy`
(`docker exec … pgrep`), `startCodeServer` (several `docker` commands), and
`stopSession` (`docker exec … pkill`). -/
inductive IoOp where
  | healthCheck
  | startCodeServer
  | stopSession
deriving DecidableEq

/-- Events of a registry operation: shared/exclusive lock transitions, map
accesses, and container-runtime IO. -/
inductive RegEv where
  | rlock
  | runlock
  | lock
  | unlock
  | mapRead
  | mapInsert
  | mapDelete
  | io (op : IoOp)
deriving DecidableEq

/-- Event trace of `getOrCreateSession`.  `found0`/`healthy0` describe the
fast path (read under `RLock`, health check after `RUnlock`), `found1`/
`healthy1` the double-check after taking the write lock.  The health re-check
and `startCodeServer` both run between `mu.Lock()` and the deferred
`mu.Unlock()`. -/
def getOrCreateTrace (found0 healthy0 found1 healthy1 : Bool) : List RegEv :=
  [RegEv.rlock, RegEv.mapRead, RegEv.runlock] ++
  (if found0 then [RegEv.io IoOp.healthCheck] else []) ++
  (if found0 && healthy0 then [] else
    [RegEv.lock, RegEv.mapRead] ++
    (if found1 then [RegEv.io IoOp.healthCheck] else []) ++
    (if found1 && healthy1 then [RegEv.unlock] else
      [RegEv.io IoOp.startCodeServer, RegEv.mapInsert, RegEv.unlock]))

/-- Loop body events of one `cleanupIdleSessions` pass: each session is read;
a session idle beyond the threshold additionally gets `stopSession` IO and a
map delete. -/
def sweepBody : List Bool → List RegEv
  | [] => []
  | b :: bs =>
    (if b then [RegEv.mapRead, RegEv.io IoOp.stopSession, RegEv.mapDelete]
     else [RegEv.mapRead]) ++ sweepBody bs

/-- Event trace of one pass of `cleanupIdleSessions`: the whole
iterate-and-sweep loop runs between `mu.Lock()` and `mu.Unlock()`. -/
def cleanupPassTrace (expired : List Bool) : List RegEv :=
  [RegEv.lock] ++ sweepBody expired ++ [RegEv.unlock]

/-- Scan a trace tracking the exclusive-lock depth; true iff some IO event
happens while the exclusive lock is held. -/
def ioUnderLock : Nat → List RegEv → Bool
  | _, [] => false
  | depth, RegEv.lock :: tl => ioUnderLock (depth + 1) tl
  | depth, RegEv.unlock :: tl => ioUnderLock (depth - 1) tl
  | depth, RegEv.io _ :: tl => decide (0 < depth) || ioUnderLock depth tl
  | depth, _ :: tl => ioUnderLock depth tl

/-- Whether a trace performs container-runtime IO while holding the exclusive
lock. -/
def ioWhileLocked (tr : List RegEv) : Bool :=
  ioUnderLock 0 tr

/-! ### IDE session registry: concurrent get-or-create

For the idempotence property the same `getOrCreateSession` is modelled as an
interleaving of atomic steps on the shared map: `fastRead` is the `RLock`
read plus health check (it mutates nothing), `crit` is the whole
`mu.Lock() … mu.Unlock()` critical section, which the mutex serializes.
Sessions are identified by construction number; `constructed` counts calls to
`startCodeServer`; `results` collects the session each caller observed. -/

/-- Shared registry state restricted to one key, plus observation log. -/
structure RegistryState where
  reg : Option Nat
  nextId : Nat
  constructed : Nat
  results : List Nat
deriving DecidableEq

/-- A caller's atomic actions: the unlocked fast-path read, and the locked
check-then-create critical section. -/
inductive RegistryAct where
  | fastRead
  | crit
deriving DecidableEq

/-- One atomic action of `getOrCreateSession` against the shared state.
`healthy` is the outcome of `isSessionHealthy` for each session. -/
def registryStep (healthy : Nat → Bool) (st : RegistryState) : RegistryAct → RegistryState
  | RegistryAct.fastRead =>
    match st.reg with
    | some s => if healthy s then { st with results := st.results ++ [s] } else st
    | none => st
  | RegistryAct.crit =>
    match st.reg with
    | some s =>
      if healthy s then { st with results := st.results ++ [s] }
      else { reg := some st.nextId, nextId := st.nextId + 1,
             constructed := st.constructed + 1, results := st.results ++ [st.nextId] }
    | none =>
      { reg := some st.nextId, nextId := st.nextId + 1,
        constructed := st.constructed + 1, results := st.results ++ [st.nextId] }

/-- Run an interleaving of atomic registry actions. -/
def registryRun (healthy : Nat → Bool) : List RegistryAct → RegistryState → RegistryState
  | [], st => st
  | a :: acts, st => registryRun healthy acts (registryStep healthy st a)

/-- Registry state before any call for the key: no session registered. -/
def registryInit : RegistryState :=
  ⟨none, 0, 0, []⟩

/-! ### Idle sweep -/

/-- The data of an `IDESession` relevant to the sweep (timestamps in
nanoseconds, as Go `time.Duration`/`time.Time` arithmetic). -/
structure IDESession where
  nodeName : String
  port : Int
  lastAccess : Int
deriving DecidableEq

/-- One minute in nanoseconds (Go `time.Minute`). -/
def minuteNs : Int := 60 * 1000000000

/-- The ticker period of `cleanupIdleSessions`: `5 * time.Minute`. -/
def cleanupTickInterval : Int := 5 * minuteNs

/-- The idle threshold of `cleanupIdleSessions`: `30 * time.Minute`. -/
def idleTimeout : Int := 30 * minuteNs

/-- One pass of the `cleanupIdleSessions` loop body at time `now`: every
session with `time.Since(LastAccess) > 30*time.Minute` is stopped and deleted
from the map; the result is the pair (sessions kept, sessions stopped). -/
def cleanupIdleSessionsPass (now : Int) :
    List (String × IDESession) → List (String × IDESession) × List (String × IDESession)
  | [] => ([], [])
  | kv :: rest =>
    let r := cleanupIdleSessionsPass now rest
    if idleTimeout < now - kv.2.lastAccess then (r.1, kv :: r.2) else (kv :: r.1, r.2)

/-! ### Theorems -/

/-- C8: `Evaluate("sudoku --help")` is Accepted although the deny list
contains patterns for `sudo` (`\bsudo\b`) and `su` (`\bsu\s`): both patterns
anchor on word boundaries, so neither matches inside the longer word
`sudoku`, and no other deny pattern or heuristic trips. -/
theorem c8_sudoku_accepted :
    (Rx.seq Rx.wordB (Rx.seq (rxStr "sudo") Rx.wordB), "Sudo execution") ∈ blockedCommands ∧
    (Rx.seq Rx.wordB (Rx.seq (rxStr "su") (Rx.cls CharCls.space)), "Switch user") ∈ blockedCommands ∧
    rxMatch (Rx.seq Rx.wordB (Rx.seq (rxStr "sudo") Rx.wordB)) "sudoku --help".data = false ∧
    rxMatch (Rx.seq Rx.wordB (Rx.seq (rxStr "su") (Rx.cls CharCls.space))) "sudoku --help".data = false ∧
    ValidateCommand "sudoku --help".data = (true, "") := by
  decide

/-- C2 counterexample: the command `cat ../../.. &>/dev/null` matches no deny
pattern, has no pipes or semicolons, is short, and contains each suspicious
substring at most once (so at most 2 occurrences of any single entry), yet
`ValidateCommand` rejects it: the code counts the number of *distinct*
suspicious entries present (here 3, because `&>/dev/null` also contains
`/dev/null`), not the occurrences of any single entry. -/
theorem c2_counterexample :
    firstBlocked blockedCommands (trimSpace "cat ../../.. &>/dev/null".data) = none ∧
    ("cat ../../.. &>/dev/null".data.count '|') ≤ 5 ∧
    ("cat ../../.. &>/dev/null".data.count ';') ≤ 5 ∧
    goLen "cat ../../.. &>/dev/null".data ≤ 1000 ∧
    (∀ p ∈ suspiciousPatterns, countOccur p "cat ../../.. &>/dev/null".data ≤ 2) ∧
    ValidateCommand "cat ../../.. &>/dev/null".data =
      (false, "Blocked: Suspicious pattern detected") := by
  decide

/-- C3 counterexample: the raw command text `"su "` (with its trailing space)
matches the deny pattern `\bsu\s`, yet `ValidateCommand` accepts it, because
the code trims whitespace before matching and the trimmed text `"su"` no
longer matches: the claim is not true of raw text with trailing whitespace. -/
theorem c3_counterexample :
    (Rx.seq Rx.wordB (Rx.seq (rxStr "su") (Rx.cls CharCls.space)), "Switch user") ∈ blockedCommands ∧
    rxMatch (Rx.seq Rx.wordB (Rx.seq (rxStr "su") (Rx.cls CharCls.space))) "su ".data = true ∧
    ValidateCommand "su ".data = (true, "") := by
  decide

/-- C4 counterexample: on the create path (`found` false at both checks) the
`getOrCreateSession` trace performs container-runtime IO (`startCodeServer`)
while the exclusive lock is held, and a sweep pass with one expired session
performs `stopSession` IO while the exclusive lock is held. -/
theorem c4_counterexample :
    ioWhileLocked (getOrCreateTrace false false false false) = true ∧
    ioWhileLocked (cleanupPassTrace [true]) = true := by
  decide

/-- C6 counterexample: a resize message with `rows = 65536 > 0`,
`cols = 80 > 0` sets the PTY dimensions to `(0, 80)`, not `(65536, 80)`:
the Go code truncates the `int` fields to `uint16`. -/
theorem c6_counterexample :
    (0 : Int) < 65536 ∧ (0 : Int) < 80 ∧
    resizeStep { rows := 24, cols := 80 } 65536 80 = { rows := 0, cols := 80 } ∧
    ({ rows := 0, cols := 80 } : PtyDims) ≠ { rows := 65536, cols := 80 } := by
  decide

/-- C10 counterexample: the message `"\n"` contains a line terminator, but
with an empty assembly buffer the flattened trimmed command is empty and the
policy engine is applied zero times, not exactly once (both handlers guard
the `ValidateCommand` call with `cmd != ""`). -/
theorem c10_counterexample :
    ("\n".data.contains '\n' || "\n".data.contains '\r') = true ∧
    (workerNodeInputStep initialBridgeState "\n".data).evaluated = [] ∧
    (secureCLIInputStep initialBridgeState "\n".data).evaluated = [] := by
  decide

/-- C1 counterexample: the line `sudo x` arrives in two input messages,
`"sudo "` then `"x\n"`.  The line is Rejected, yet its bytes `"sudo "` had
already been forwarded to the PTY when the first message arrived — so it is
not the case that none of the rejected line's bytes (as received in inbound
input messages) reach the PTY.  Moreover `HandleSecureTerminalCLI` writes no
bare line terminator to the PTY at all on rejection (its PTY writes stay
`["sudo "]`), while `handleWorkerNodeTerminal` does write `"\r\n"`. -/
theorem c1_counterexample :
    (workerNodeInputStep (workerNodeInputStep initialBridgeState "sudo ".data) "x\n".data).ptyWrites
      = ["sudo ".data, "\r\n".data] ∧
    (workerNodeInputStep (workerNodeInputStep initialBridgeState "sudo ".data) "x\n".data).evaluated
      = ["sudo x".data] ∧
    (workerNodeInputStep (workerNodeInputStep initialBridgeState "sudo ".data) "x\n".data).outFrames
      = [blockWarning "Blocked: Sudo execution"] ∧
    ValidateCommand "sudo x".data = (false, "Blocked: Sudo execution") ∧
    (secureCLIInputStep (secureCLIInputStep initialBridgeState "sudo ".data) "x\n".data).ptyWrites
      = ["sudo ".data] := by
  decide

/-- Trimming whitespace yields a sublist of the original text. -/
theorem trimSpace_sublist (l : List Char) : List.Sublist (trimSpace l) l := by
  have h1 : List.Sublist (l.dropWhile isGoSpace) l :=
    (List.dropWhile_suffix isGoSpace).sublist
  have h2 : List.Sublist ((l.dropWhile isGoSpace).reverse.dropWhile isGoSpace)
      (l.dropWhile isGoSpace).reverse :=
    (List.dropWhile_suffix isGoSpace).sublist
  have h3 := h2.reverse
  rw [List.reverse_reverse] at h3
  exact h3.trans h1

/-- Byte length is monotone under sublists. -/
theorem goLen_le_of_sublist {l l' : List Char} (h : List.Sublist l l') :
    goLen l ≤ goLen l' := by
  unfold goLen
  exact (h.map Char.utf8Size).sum_le_sum (by simp)

/-- The empty command matches no deny pattern. -/
theorem firstBlocked_nil_eq_none : firstBlocked blockedCommands [] = none := by
  decide

/-- C2 (amended): a command whose trimmed text matches no deny pattern, with
at most 5 pipes, at most 5 semicolons, at most 1000 bytes, and in which fewer
than three *distinct* members of the suspicious-substring set occur (the
engine counts each entry once if present, regardless of how often it occurs)
is Accepted by `ValidateCommand`. -/
theorem c2_accept_under_thresholds (c : List Char)
    (hdeny : firstBlocked blockedCommands (trimSpace c) = none)
    (hpipe : c.count '|' ≤ 5)
    (hsemi : c.count ';' ≤ 5)
    (hlen : goLen c ≤ 1000)
    (hsusp : suspiciousCount (trimSpace c) ≤ 2) :
    ValidateCommand c = (true, "") := by
  have hsub := trimSpace_sublist c
  have hpipe' : (trimSpace c).count '|' ≤ 5 := le_trans (hsub.count_le '|') hpipe
  have hsemi' : (trimSpace c).count ';' ≤ 5 := le_trans (hsub.count_le ';') hsemi
  have hlen' : goLen (trimSpace c) ≤ 1000 := le_trans (goLen_le_of_sublist hsub) hlen
  simp only [ValidateCommand]
  by_cases he : (trimSpace c).isEmpty = true
  · rw [if_pos he]
  · rw [if_neg he, hdeny]
    rw [if_neg (by omega : ¬ (trimSpace c).count '|' > 5)]
    rw [if_neg (by omega : ¬ (trimSpace c).count ';' > 5)]
    rw [if_neg (by omega : ¬ goLen (trimSpace c) > 1000)]
    rw [if_neg (by omega : ¬ suspiciousCount (trimSpace c) > 2)]

/-- Witness for `c2_accept_under_thresholds` at `kubectl get pods`. -/
theorem c2_witness : ValidateCommand "kubectl get pods".data = (true, "") :=
  c2_accept_under_thresholds "kubectl get pods".data (by decide) (by decide)
    (by decide) (by decide) (by decide)

/-- C3 (amended): a command whose *trimmed* text matches at least one deny
pattern is Rejected, with the reason of the first matching pattern in the
ordered deny list (the scan short-circuits); trimming happens first, so
trailing whitespace a pattern itself requires (as in `\bsu\s`) is gone
before matching. -/
theorem c3_reject_on_deny_match (c : List Char) (r : String)
    (h : firstBlocked blockedCommands (trimSpace c) = some r) :
    ValidateCommand c = (false, r) := by
  have hne : ¬ (trimSpace c).isEmpty = true := by
    intro hh
    rw [List.isEmpty_iff.mp hh, firstBlocked_nil_eq_none] at h
    exact Option.noConfusion h
  simp only [ValidateCommand]
  rw [if_neg hne, h]

/-- Witness for `c3_reject_on_deny_match` at `sudo ls`: the first matching
pattern is `\bsudo\b`. -/
theorem c3_witness : ValidateCommand "sudo ls".data = (false, "Blocked: Sudo execution") :=
  c3_reject_on_deny_match "sudo ls".data "Blocked: Sudo execution" (by decide)

/-- Filtering cannot introduce a character that was not in the list. -/
theorem contains_filter_eq_false (p : Char → Bool) (c : Char) :
    ∀ (l : List Char), l.contains c = false → (l.filter p).contains c = false
  | [], h => h
  | a :: l, h => by
    rw [List.contains_cons, Bool.or_eq_false_iff] at h
    rw [List.filter_cons]
    by_cases hp : p a = true
    · rw [if_pos hp, List.contains_cons, Bool.or_eq_false_iff]
      exact ⟨h.1, contains_filter_eq_false p c l h.2⟩
    · rw [if_neg hp]
      exact contains_filter_eq_false p c l h.2

/-- NUL removal preserves the presence of any non-NUL character. -/
theorem sanitize_contains_eq (c : Char) (hc : ¬ c = '\x00') :
    ∀ (data : List Char), (SanitizeInput data).contains c = data.contains c
  | [] => rfl
  | a :: l => by
    by_cases ha : a = '\x00'
    · subst ha
      have h1 : SanitizeInput ('\x00' :: l) = SanitizeInput l := by
        simp [SanitizeInput, List.filter_cons]
      have h2 : (c == '\x00') = false := by
        simp only [beq_eq_false_iff_ne, ne_eq]
        exact hc
      rw [h1, sanitize_contains_eq c hc l, List.contains_cons, h2, Bool.false_or]
    · have h1 : SanitizeInput (a :: l) = a :: SanitizeInput l := by
        simp [SanitizeInput, List.filter_cons, ha]
      rw [h1, List.contains_cons, List.contains_cons, sanitize_contains_eq c hc l]

/-- C9: an input message containing neither a newline nor a carriage return
is appended to the line-assembly buffer and written to the PTY immediately,
with only NUL characters removed; no command is passed to the policy engine
and no warning frame is emitted — in both handlers. -/
theorem c9_no_terminator_passthrough (st : BridgeState) (data : List Char)
    (hn : data.contains '\n' = false) (hr : data.contains '\r' = false) :
    workerNodeInputStep st data =
      { cmdBuffer := st.cmdBuffer ++ SanitizeInput data,
        ptyWrites := st.ptyWrites ++ [SanitizeInput data],
        outFrames := st.outFrames,
        evaluated := st.evaluated } ∧
    secureCLIInputStep st data =
      { cmdBuffer := st.cmdBuffer ++ SanitizeInput data,
        ptyWrites := st.ptyWrites ++ [SanitizeInput data],
        outFrames := st.outFrames,
        evaluated := st.evaluated } := by
  have hn' : (SanitizeInput data).contains '\n' = false :=
    contains_filter_eq_false _ _ data hn
  have hr' : (SanitizeInput data).contains '\r' = false :=
    contains_filter_eq_false _ _ data hr
  have hcond : ((SanitizeInput data).contains '\n' || (SanitizeInput data).contains '\r') = false := by
    rw [hn', hr']
    rfl
  constructor
  · simp only [workerNodeInputStep]
    rw [if_neg (by rw [hcond]; exact Bool.false_ne_true)]
  · simp only [secureCLIInputStep]
    rw [if_neg (by rw [hcond]; exact Bool.false_ne_true)]

/-- Witness for `c9_no_terminator_passthrough` at the chunk `ls`. -/
theorem c9_witness :
    workerNodeInputStep initialBridgeState "ls".data =
      { cmdBuffer := "ls".data, ptyWrites := ["ls".data],
        outFrames := [], evaluated := [] } ∧
    secureCLIInputStep initialBridgeState "ls".data =
      { cmdBuffer := "ls".data, ptyWrites := ["ls".data],
        outFrames := [], evaluated := [] } :=
  c9_no_terminator_passthrough initialBridgeState "ls".data (by decide) (by decide)

/-- C10 (amended): when the message contains a line terminator the policy
engine is applied to the entire flattened, trimmed assembly buffer — once if
that command text is nonempty and not at all if it is empty — and the buffer
is reset; multiple shell lines inside one message are thus evaluated as one
concatenated command string, never line by line.  Holds for both handlers. -/
theorem c10_single_evaluation (st : BridgeState) (data : List Char)
    (ht : (data.contains '\n' || data.contains '\r') = true) :
    ((workerNodeInputStep st data).cmdBuffer = [] ∧
     (workerNodeInputStep st data).evaluated = st.evaluated ++
       (if (assembleCmd (st.cmdBuffer ++ SanitizeInput data)).isEmpty = true then []
        else [assembleCmd (st.cmdBuffer ++ SanitizeInput data)])) ∧
    ((secureCLIInputStep st data).cmdBuffer = [] ∧
     (secureCLIInputStep st data).evaluated = st.evaluated ++
       (if (assembleCmd (st.cmdBuffer ++ SanitizeInput data)).isEmpty = true then []
        else [assembleCmd (st.cmdBuffer ++ SanitizeInput data)])) := by
  have ht' : ((SanitizeInput data).contains '\n' || (SanitizeInput data).contains '\r') = true := by
    rw [sanitize_contains_eq '\n' (by decide) data, sanitize_contains_eq '\r' (by decide) data]
    exact ht
  constructor
  · simp only [workerNodeInputStep]
    rw [if_pos ht']
    by_cases hce : (assembleCmd (st.cmdBuffer ++ SanitizeInput data)).isEmpty = true
    · rw [if_pos hce, if_pos hce, List.append_nil]
      exact ⟨rfl, rfl⟩
    · rw [if_neg hce, if_neg hce]
      rcases hv : ValidateCommand (assembleCmd (st.cmdBuffer ++ SanitizeInput data)) with ⟨b, reason⟩
      cases b
      · exact ⟨rfl, rfl⟩
      · exact ⟨rfl, rfl⟩
  · simp only [secureCLIInputStep]
    rw [if_pos ht']
    by_cases hce : (assembleCmd (st.cmdBuffer ++ SanitizeInput data)).isEmpty = true
    · rw [if_pos hce, if_pos hce, List.append_nil]
      exact ⟨rfl, rfl⟩
    · rw [if_neg hce, if_neg hce]
      rcases hv : ValidateCommand (assembleCmd (st.cmdBuffer ++ SanitizeInput data)) with ⟨b, reason⟩
      cases b
      · exact ⟨rfl, rfl⟩
      · exact ⟨rfl, rfl⟩

/-- Witness for `c10_single_evaluation`: buffer `x` plus the message
`echo a\necho b\n` yields the single evaluated command `xecho aecho b`. -/
theorem c10_witness :
    ((workerNodeInputStep ⟨"x".data, [], [], []⟩ "echo a\necho b\n".data).cmdBuffer = [] ∧
     (workerNodeInputStep ⟨"x".data, [], [], []⟩ "echo a\necho b\n".data).evaluated =
       ["xecho aecho b".data]) ∧
    ((secureCLIInputStep ⟨"x".data, [], [], []⟩ "echo a\necho b\n".data).cmdBuffer = [] ∧
     (secureCLIInputStep ⟨"x".data, [], [], []⟩ "echo a\necho b\n".data).evaluated =
       ["xecho aecho b".data]) :=
  c10_single_evaluation ⟨"x".data, [], [], []⟩ "echo a\necho b\n".data (by decide)

/-- C1 (amended): when the message that completes a line is processed and the
assembled line is Rejected, that message's (NUL-stripped) bytes are *not*
forwarded to the PTY — though bytes of earlier messages of the same line were
already forwarded when they arrived; `handleWorkerNodeTerminal` writes a bare
`"\r\n"` line terminator to the PTY and emits an ANSI-colored warning frame,
while `HandleSecureTerminalCLI` emits an ANSI-colored warning frame beginning
with `"\r\n"` and writes nothing to the PTY.  When the assembled line is
Accepted, both handlers forward the message's NUL-stripped bytes to the PTY
byte-for-byte, including trailing control characters and the terminator. -/
theorem c1_rejected_line_handling (st : BridgeState) (data : List Char) (reason : String)
    (ht : ((SanitizeInput data).contains '\n' || (SanitizeInput data).contains '\r') = true)
    (hcmd : (assembleCmd (st.cmdBuffer ++ SanitizeInput data)).isEmpty = false) :
    (ValidateCommand (assembleCmd (st.cmdBuffer ++ SanitizeInput data)) = (false, reason) →
      workerNodeInputStep st data =
        { cmdBuffer := [], ptyWrites := st.ptyWrites ++ ["\r\n".data],
          outFrames := st.outFrames ++ [blockWarning reason],
          evaluated := st.evaluated ++ [assembleCmd (st.cmdBuffer ++ SanitizeInput data)] } ∧
      secureCLIInputStep st data =
        { cmdBuffer := [], ptyWrites := st.ptyWrites,
          outFrames := st.outFrames ++ [secureBlockWarning reason],
          evaluated := st.evaluated ++ [assembleCmd (st.cmdBuffer ++ SanitizeInput data)] }) ∧
    ((ValidateCommand (assembleCmd (st.cmdBuffer ++ SanitizeInput data))).1 = true →
      workerNodeInputStep st data =
        { cmdBuffer := [], ptyWrites := st.ptyWrites ++ [SanitizeInput data],
          outFrames := st.outFrames,
          evaluated := st.evaluated ++ [assembleCmd (st.cmdBuffer ++ SanitizeInput data)] } ∧
      secureCLIInputStep st data =
        { cmdBuffer := [], ptyWrites := st.ptyWrites ++ [SanitizeInput data],
          outFrames := st.outFrames,
          evaluated := st.evaluated ++ [assembleCmd (st.cmdBuffer ++ SanitizeInput data)] }) := by
  have hcmd' : ¬ (assembleCmd (st.cmdBuffer ++ SanitizeInput data)).isEmpty = true := by
    rw [hcmd]
    exact Bool.false_ne_true
  constructor
  · intro hv
    constructor
    · simp only [workerNodeInputStep]
      rw [if_pos ht, if_neg hcmd', hv]
    · simp only [secureCLIInputStep]
      rw [if_pos ht, if_neg hcmd', hv]
  · intro hv1
    rcases hv : ValidateCommand (assembleCmd (st.cmdBuffer ++ SanitizeInput data)) with ⟨b, rr⟩
    rw [hv] at hv1
    cases b
    · exact absurd hv1 Bool.false_ne_true
    · constructor
      · simp only [workerNodeInputStep]
        rw [if_pos ht, if_neg hcmd', hv]
      · simp only [secureCLIInputStep]
        rw [if_pos ht, if_neg hcmd', hv]

/-- Witness for `c1_rejected_line_handling`: the single-message line
`sudo x\n` is rejected; the worker-node handler's PTY sees only `"\r\n"`,
the secure-CLI handler's PTY sees nothing, and both emit the warning. -/
theorem c1_witness :
    workerNodeInputStep initialBridgeState "sudo x\n".data =
      { cmdBuffer := [], ptyWrites := ["\r\n".data],
        outFrames := [blockWarning "Blocked: Sudo execution"],
        evaluated := ["sudo x".data] } ∧
    secureCLIInputStep initialBridgeState "sudo x\n".data =
      { cmdBuffer := [], ptyWrites := [],
        outFrames := [secureBlockWarning "Blocked: Sudo execution"],
        evaluated := ["sudo x".data] } :=
  (c1_rejected_line_handling initialBridgeState "sudo x\n".data
    "Blocked: Sudo execution" (by decide) (by decide)).1 (by decide)

/-- With the exclusive lock held, a sweep body containing an expired session
performs IO under the lock. -/
theorem ioUnderLock_sweepBody (d : Nat) (hd : 0 < d) :
    ∀ (expired : List Bool), expired.contains true = true →
      ioUnderLock d (sweepBody expired ++ [RegEv.unlock]) = true
  | [], h => absurd h (by decide)
  | true :: bs, _ => by
    simp only [sweepBody, if_pos rfl, List.cons_append, List.nil_append, ioUnderLock]
    rw [decide_eq_true hd]
    rfl
  | false :: bs, h => by
    have h' : bs.contains true = true := by
      rw [List.contains_cons] at h
      simpa using h
    simp only [sweepBody, if_neg (by decide : ¬ (false = true)), List.cons_append,
      List.nil_append, ioUnderLock]
    exact ioUnderLock_sweepBody d hd bs h'

/-- C4 (amended): `getOrCreateSession` and the idle sweep invoke the
container runtime *while holding* the registry's exclusive lock: on every
path taken with the write lock held — the double-check health re-check and
the `startCodeServer` call — the runtime IO happens between `Lock` and
`Unlock`, and every sweep pass with at least one expired session performs
`stopSession` IO under the lock.  Only the fast-path health check runs
outside the lock. -/
theorem c4_io_under_lock :
    (∀ found0 healthy0 found1 healthy1 : Bool,
      (found0 && healthy0) = false → (found1 && healthy1) = false →
      ioWhileLocked (getOrCreateTrace found0 healthy0 found1 healthy1) = true) ∧
    (∀ expired : List Bool, expired.contains true = true →
      ioWhileLocked (cleanupPassTrace expired) = true) := by
  constructor
  · decide
  · intro expired h
    simp only [ioWhileLocked, cleanupPassTrace, List.cons_append, List.nil_append, ioUnderLock]
    exact ioUnderLock_sweepBody 1 (by decide) expired h

/-- Witness for `c4_io_under_lock`: the create path and a sweep of one
expired session both do IO under the lock. -/
theorem c4_witness :
    ioWhileLocked (getOrCreateTrace false false true false) = true ∧
    ioWhileLocked (cleanupPassTrace [false, true]) = true :=
  ⟨c4_io_under_lock.1 false false true false (by decide) (by decide),
   c4_io_under_lock.2 [false, true] (by decide)⟩

/-- A `crit` step always leaves a session registered. -/
theorem registryStep_crit_isSome (healthy : Nat → Bool) (st : RegistryState) :
    (registryStep healthy st RegistryAct.crit).reg.isSome = true := by
  rcases hs : st.reg with _ | s
  · simp only [registryStep, hs]
    rfl
  · simp only [registryStep, hs]
    by_cases hh : healthy s = true
    · rw [if_pos hh]
      simp [hs]
    · rw [if_neg hh]
      rfl

/-- No step ever unregisters a session. -/
theorem registryStep_reg_isSome (healthy : Nat → Bool) (st : RegistryState) (a : RegistryAct)
    (h : st.reg.isSome = true) : (registryStep healthy st a).reg.isSome = true := by
  cases a
  · rcases hs : st.reg with _ | s
    · rw [hs] at h
      exact absurd h (by decide)
    · simp only [registryStep, hs]
      by_cases hh : healthy s = true
      · rw [if_pos hh]
        simp [hs]
      · rw [if_neg hh]
        simp [hs]
  · exact registryStep_crit_isSome healthy st

/-- Once a session is registered it stays registered through any run. -/
theorem registryRun_reg_isSome (healthy : Nat → Bool) :
    ∀ (acts : List RegistryAct) (st : RegistryState),
      st.reg.isSome = true → (registryRun healthy acts st).reg.isSome = true
  | [], _, h => h
  | a :: acts, st, h =>
    registryRun_reg_isSome healthy acts (registryStep healthy st a)
      (registryStep_reg_isSome healthy st a h)

/-- If some caller enters the critical section, a session ends up
registered. -/
theorem registryRun_crit_isSome (healthy : Nat → Bool) :
    ∀ (acts : List RegistryAct) (st : RegistryState),
      acts.contains RegistryAct.crit = true →
      (registryRun healthy acts st).reg.isSome = true
  | [], _, h => absurd h (by decide)
  | a :: acts, st, h => by
    by_cases ha : acts.contains RegistryAct.crit = true
    · exact registryRun_crit_isSome healthy acts (registryStep healthy st a) ha
    · have hcrit : a = RegistryAct.crit := by
        rw [List.contains_cons] at h
        rcases Bool.or_eq_true_iff.mp h with h1 | h1
        · exact (beq_iff_eq.mp h1).symm
        · exact absurd h1 ha
      subst hcrit
      exact registryRun_reg_isSome healthy acts _ (registryStep_crit_isSome healthy st)

/-- Invariant of the registry under always-healthy sessions: either nothing
was ever constructed and nothing observed, or exactly one session was
constructed and every caller observed it. -/
theorem registry_invariant (healthy : Nat → Bool) (hh : ∀ n, healthy n = true) :
    ∀ (acts : List RegistryAct) (st : RegistryState),
      ((st.reg = none ∧ st.constructed = 0 ∧ st.results = []) ∨
       (∃ s, st.reg = some s ∧ st.constructed = 1 ∧ ∀ r ∈ st.results, r = s)) →
      (((registryRun healthy acts st).reg = none ∧
        (registryRun healthy acts st).constructed = 0 ∧
        (registryRun healthy acts st).results = []) ∨
       (∃ s, (registryRun healthy acts st).reg = some s ∧
        (registryRun healthy acts st).constructed = 1 ∧
        ∀ r ∈ (registryRun healthy acts st).results, r = s))
  | [], _, h => h
  | a :: acts, st, h => by
    apply registry_invariant healthy hh acts
    rcases h with ⟨h1, h2, h3⟩ | ⟨s, h1, h2, h3⟩
    · cases a
      · have hstep : registryStep healthy st RegistryAct.fastRead = st := by
          simp [registryStep, h1]
        rw [hstep]
        exact Or.inl ⟨h1, h2, h3⟩
      · have hstep : registryStep healthy st RegistryAct.crit =
            ⟨some st.nextId, st.nextId + 1, st.constructed + 1, st.results ++ [st.nextId]⟩ := by
          simp [registryStep, h1]
        rw [hstep]
        refine Or.inr ⟨st.nextId, rfl, by simp [h2], ?_⟩
        intro r hr
        rw [h3] at hr
        simpa using hr
    · cases a
      · have hstep : registryStep healthy st RegistryAct.fastRead =
            { st with results := st.results ++ [s] } := by
          simp [registryStep, h1, hh s]
        rw [hstep]
        refine Or.inr ⟨s, h1, h2, ?_⟩
        intro r hr
        simp only [List.mem_append, List.mem_singleton] at hr
        rcases hr with hr | hr
        · exact h3 r hr
        · exact hr
      · have hstep : registryStep healthy st RegistryAct.crit =
            { st with results := st.results ++ [s] } := by
          simp [registryStep, h1, hh s]
        rw [hstep]
        refine Or.inr ⟨s, h1, h2, ?_⟩
        intro r hr
        simp only [List.mem_append, List.mem_singleton] at hr
        rcases hr with hr | hr
        · exact h3 r hr
        · exact hr

/-- C5: under any interleaving of `N` concurrent `getOrCreateSession` calls
for one key (each call one unlocked fast read and, if that missed, one
mutex-serialized critical section), with constructed sessions staying
healthy: at most one session is ever constructed — exactly one as soon as
any caller enters the critical section, which from the empty initial state
every first caller does — and every observed result is the one registered
session, so all callers observe the same session. -/
theorem c5_get_or_create_idempotent (healthy : Nat → Bool) (hh : ∀ n, healthy n = true)
    (acts : List RegistryAct) :
    (registryRun healthy acts registryInit).constructed ≤ 1 ∧
    (∀ r ∈ (registryRun healthy acts registryInit).results,
      (registryRun healthy acts registryInit).reg = some r) ∧
    (acts.contains RegistryAct.crit = true →
      (registryRun healthy acts registryInit).constructed = 1) := by
  have hinv := registry_invariant healthy hh acts registryInit (Or.inl ⟨rfl, rfl, rfl⟩)
  refine ⟨?_, ?_, ?_⟩
  · rcases hinv with ⟨_, h2, _⟩ | ⟨s, _, h2, _⟩ <;> omega
  · intro r hr
    rcases hinv with ⟨_, _, h3⟩ | ⟨s, h1, _, h3⟩
    · rw [h3] at hr
      exact absurd hr (List.not_mem_nil r)
    · rw [h1, h3 r hr]
  · intro hc
    have hsome := registryRun_crit_isSome healthy acts registryInit hc
    rcases hinv with ⟨h1, _, _⟩ | ⟨_, _, h2, _⟩
    · rw [h1] at hsome
      exact absurd hsome (by decide)
    · exact h2

/-- Witness for `c5_get_or_create_idempotent`: three callers, one
interleaving (two fast reads racing a critical section and a late fast
read). -/
theorem c5_witness :
    (registryRun (fun _ => true)
      [RegistryAct.fastRead, RegistryAct.fastRead, RegistryAct.crit,
       RegistryAct.crit, RegistryAct.fastRead] registryInit).constructed ≤ 1 ∧
    (∀ r ∈ (registryRun (fun _ => true)
      [RegistryAct.fastRead, RegistryAct.fastRead, RegistryAct.crit,
       RegistryAct.crit, RegistryAct.fastRead] registryInit).results,
      (registryRun (fun _ => true)
        [RegistryAct.fastRead, RegistryAct.fastRead, RegistryAct.crit,
         RegistryAct.crit, RegistryAct.fastRead] registryInit).reg = some r) ∧
    ([RegistryAct.fastRead, RegistryAct.fastRead, RegistryAct.crit,
      RegistryAct.crit, RegistryAct.fastRead].contains RegistryAct.crit = true →
      (registryRun (fun _ => true)
        [RegistryAct.fastRead, RegistryAct.fastRead, RegistryAct.crit,
         RegistryAct.crit, RegistryAct.fastRead] registryInit).constructed = 1) :=
  c5_get_or_create_idempotent (fun _ => true) (fun _ => rfl)
    [RegistryAct.fastRead, RegistryAct.fastRead, RegistryAct.crit,
     RegistryAct.crit, RegistryAct.fastRead]

/-- C6 (amended): a resize message with positive rows and cols sets the PTY
dimensions to the values truncated to 16 bits, `(rows mod 65536,
cols mod 65536)` — which coincide with `(rows, cols)` exactly when both are
below 65536 — and a message with a non-positive field leaves the dimensions
unchanged. -/
theorem c6_resize_truncation (dims : PtyDims) (r c : Int) :
    (0 < r → 0 < c → resizeStep dims r c = { rows := r % 65536, cols := c % 65536 }) ∧
    (0 < r → 0 < c → r < 65536 → c < 65536 →
      resizeStep dims r c = { rows := r, cols := c }) ∧
    (¬ (0 < r ∧ 0 < c) → resizeStep dims r c = dims) := by
  refine ⟨?_, ?_, ?_⟩
  · intro hr hc
    simp only [resizeStep, uint16Of]
    rw [if_pos ⟨hr, hc⟩]
  · intro hr hc hr' hc'
    simp only [resizeStep, uint16Of]
    rw [if_pos ⟨hr, hc⟩, Int.emod_eq_of_lt (le_of_lt hr) hr',
      Int.emod_eq_of_lt (le_of_lt hc) hc']
  · intro h
    simp only [resizeStep]
    rw [if_neg h]

/-- Witness for `c6_resize_truncation` at an in-range resize (30, 100). -/
theorem c6_witness :
    resizeStep { rows := 24, cols := 80 } 30 100 = { rows := 30, cols := 100 } :=
  (c6_resize_truncation { rows := 24, cols := 80 } 30 100).2.1
    (by decide) (by decide) (by decide) (by decide)

/-- C7: the idle sweep ticks every 5 minutes independent of client activity;
each pass removes and stops exactly the sessions whose last access lies more
than 30 minutes in the past, and keeps every other session, untouched. -/
theorem c7_idle_sweep :
    cleanupTickInterval = 5 * minuteNs ∧
    idleTimeout = 30 * minuteNs ∧
    ∀ (now : Int) (ss : List (String × IDESession)),
      (cleanupIdleSessionsPass now ss).1 =
        ss.filter (fun kv => decide (now - kv.2.lastAccess ≤ idleTimeout)) ∧
      (cleanupIdleSessionsPass now ss).2 =
        ss.filter (fun kv => decide (idleTimeout < now - kv.2.lastAccess)) := by
  refine ⟨rfl, rfl, ?_⟩
  intro now ss
  induction ss with
  | nil => exact ⟨rfl, rfl⟩
  | cons kv rest ih =>
    simp only [cleanupIdleSessionsPass, List.filter_cons]
    by_cases h : idleTimeout < now - kv.2.lastAccess
    · rw [if_pos h]
      constructor
      · rw [decide_eq_false (not_le.mpr h)]
        simpa using ih.1
      · rw [decide_eq_true h]
        simpa using ih.2
    · rw [if_neg h]
      constructor
      · rw [decide_eq_true (not_lt.mp h)]
        simpa using ih.1
      · rw [decide_eq_false h]
        simpa using ih.2

end CksWeightRoom
